import Mathlib

/-!
Verification of the `Matrix` value type implemented in `src/matrix.cc`
(SergSinitsyn/Matrix_CPP): a dense 2-D grid of double-precision values with
value semantics, element-wise arithmetic, matrix multiplication, transpose,
determinant by recursive cofactor expansion, cofactor matrix and inverse.

Embedding conventions:
* `double` is modelled by `ℚ`: every claim under check concerns the
  algebraic / control structure of the code (which comparisons are made,
  which cells are written, which exceptions are thrown), not rounding.
* The C++ object state `rows_, cols_, matrix_` becomes a `Matrix` record;
  the null / moved-from grid (`matrix_ == nullptr`) is the empty list.
* A mutating member function `f` becomes `fS : Matrix → args → Matrix × Option MatrixError`:
  the returned matrix is the state of the receiver after the call, and the option
  is the exception thrown, if any.  In the source, every `throw` happens
  before any write to the receiver, so at a throw the returned state is the
  receiver unchanged.
* A `const` member returning a value becomes `Matrix → Except MatrixError _`.
* Grids written cell-by-cell over a freshly allocated `rows × cols`
  grid are built with `buildGrid`; this is the whole grid of the C++
  object, whose storage always has exactly `rows_ × cols_` cells.
-/

attribute [local semireducible] Rat.add Rat.mul Rat.sub Rat.inv

deriving instance DecidableEq for Except

namespace MatrixCpp

/-- The three exception kinds of `matrixexception.h` (header not in `src/`;
the kinds and the messages attached below are taken from the `throw` sites
of `matrix.cc`). -/
inductive MatrixError where
  | invalidArgument : MatrixError
  | outOfRange : MatrixError
  | logicError : String → MatrixError
deriving DecidableEq, Repr

/-- State of one C++ `Matrix` object: fields `rows_`, `cols_` (C++ `int`)
and the owned grid `matrix_` (row-major; `[]` models the null pointer of a
moved-from object). -/
structure Matrix where
  rows_ : Int
  cols_ : Int
  matrix_ : List (List ℚ)
deriving DecidableEq, Repr

/-- Modelled from the spec: the tolerance constant `kAccuracy` is declared
in `matrix.h`, which is not part of `src/`; the spec fixes it to `1e-7`. -/
def kAccuracy : ℚ := 1 / 10000000

/-- The value `matrix_[i][j]`; out-of-range reads (which the source never
performs on a live object) default to `0`. -/
def elem (m : Matrix) (i j : Nat) : ℚ := (m.matrix_.getD i []).getD j 0

/-- Field `rows_` as the loop bound `for (int i = 0; i < rows_; ++i)`. -/
def nr (m : Matrix) : Nat := m.rows_.toNat

/-- Field `cols_` as the loop bound `for (int j = 0; j < cols_; ++j)`. -/
def nc (m : Matrix) : Nat := m.cols_.toNat

/-- A `rows × cols` grid whose cell `(i, j)` holds `f i j`: the result of
allocating a grid and then writing every cell in a double loop. -/
def buildGrid (rows cols : Nat) (f : Nat → Nat → ℚ) : List (List ℚ) :=
  (List.range rows).map (fun i => (List.range cols).map (fun j => f i j))

/-- Embedding of `Matrix::IsNaturalNumbers`. -/
def IsNaturalNumbers (rows cols : Int) : Bool := 0 < rows && 0 < cols

/-- Embedding of `Matrix::IsSameDimensionMatrix`. -/
def IsSameDimensionMatrix (a b : Matrix) : Bool :=
  a.cols_ == b.cols_ && a.rows_ == b.rows_

/-- Embedding of `Matrix::IsSquareMatrix`. -/
def IsSquareMatrix (m : Matrix) : Bool := m.rows_ == m.cols_

/-- Embedding of `Matrix::IsMatrixNumber`. -/
def IsMatrixNumber (m : Matrix) : Bool := m.rows_ == 1 && m.cols_ == 1

/-- Embedding of `Matrix::Matrix(int rows, int cols)`: throws `InvalidArgument` unless
both dimensions are positive, else a zero-filled grid
(`AllocateMatrixMemory`). -/
def mkMatrix (rows cols : Int) : Except MatrixError Matrix :=
  if IsNaturalNumbers rows cols then
    .ok ⟨rows, cols, buildGrid rows.toNat cols.toNat (fun _ _ => 0)⟩
  else .error .invalidArgument

/-- Embedding of `Matrix::EqMatrix`: same dimensions and no element pair further apart
than `kAccuracy`.  (The `this == &other` pointer short-circuit has no
separate value-level content: identical states pass the loop.) -/
def EqMatrix (a b : Matrix) : Bool :=
  if !(IsSameDimensionMatrix a b) then false
  else
    (List.range (nr a)).all (fun i => (List.range (nc a)).all (fun j =>
      !(decide (kAccuracy < |elem a i j - elem b i j|))))

/-- Embedding of `Matrix::SumMatrix`: throw on dimension mismatch (before any write),
else add element-wise. -/
def SumMatrixS (a b : Matrix) : Matrix × Option MatrixError :=
  if !(IsSameDimensionMatrix a b) then
    (a, some (.logicError "Different dimensions of matrices"))
  else
    ({ a with matrix_ := buildGrid (nr a) (nc a) (fun i j => elem a i j + elem b i j) }, none)

/-- Embedding of `Matrix::SubMatrix`: throw on dimension mismatch (before any write),
else subtract element-wise. -/
def SubMatrixS (a b : Matrix) : Matrix × Option MatrixError :=
  if !(IsSameDimensionMatrix a b) then
    (a, some (.logicError "Different dimensions of matrices"))
  else
    ({ a with matrix_ := buildGrid (nr a) (nc a) (fun i j => elem a i j - elem b i j) }, none)

/-- Embedding of `Matrix::MulNumber`: scale every element; never throws. -/
def MulNumberS (m : Matrix) (num : ℚ) : Matrix :=
  { m with matrix_ := buildGrid (nr m) (nc m) (fun i j => elem m i j * num) }

/-- The inner `k`-loop of `Matrix::MulMatrix`: `result.matrix_[i][j]`
starts at `0` (zero-filled allocation) and accumulates
`matrix_[i][k] * other.matrix_[k][j]`. -/
def mulCell (a b : Matrix) (i j : Nat) : ℚ :=
  (List.range (nc a)).foldl (fun acc k => acc + elem a i k * elem b k j) 0

/-- Embedding of `Matrix::MulMatrix`: throw unless `cols_ == other.rows_` (before any
write); else build the `rows_ × other.cols_` product into a fresh local
`result` and adopt it (`*this = result`). -/
def MulMatrixS (a b : Matrix) : Matrix × Option MatrixError :=
  if a.cols_ ≠ b.rows_ then
    (a, some (.logicError
      "The number of columns of the first matrix is not equal to the number of rows of the second matrix"))
  else
    (⟨a.rows_, b.cols_, buildGrid (nr a) (nc b) (mulCell a b)⟩, none)

/-- Embedding of `Matrix::operator*(const Matrix&)`: copy the receiver, run `*=` on the
copy; an exception propagates, leaving the (const) receiver untouched. -/
def opStarMatrix (a b : Matrix) : Except MatrixError Matrix :=
  match MulMatrixS a b with
  | (r, none) => .ok r
  | (_, some e) => .error e

/-- Embedding of `Matrix::Transpose`: fresh `cols_ × rows_` matrix with
`result.matrix_[j][i] = matrix_[i][j]`; `noexcept`, receiver is `const`. -/
def TransposeM (m : Matrix) : Matrix :=
  ⟨m.cols_, m.rows_, buildGrid (nc m) (nr m) (fun j i => elem m i j)⟩

/-- Embedding of `Matrix::GetSubmatrix(deleted_row, deleted_col)`: fresh
`(rows_-1) × (cols_-1)` matrix holding every element outside the deleted
row and column, relative order preserved: cell `(i, j)` of the result is
the source cell at row `i` (shifted past `deleted_row`) and column `j`
(shifted past `deleted_col`). -/
def GetSubmatrix (m : Matrix) (deleted_row deleted_col : Nat) : Matrix :=
  ⟨m.rows_ - 1, m.cols_ - 1,
    buildGrid (m.rows_ - 1).toNat (m.cols_ - 1).toNat
      (fun i j =>
        elem m (if i < deleted_row then i else i + 1)
               (if j < deleted_col then j else j + 1))⟩

/-- Recursion body of `Matrix::Determinant` (after its square check):
return the single element for a 1×1 matrix, else expand along row 0,
skipping columns whose leading element is within `kAccuracy` of zero.
The `fuel` argument makes the recursion structural; every call in this
file passes `fuel = nc m`, and each recursive call is on a submatrix with
one column fewer, so the fuel mirrors the column count exactly (a 0-column
matrix yields `0`, the value of the empty accumulation loop). -/
def detAux : Nat → Matrix → ℚ
  | 0, _ => 0
  | fuel + 1, m =>
    if IsMatrixNumber m then elem m 0 0
    else
      (List.range (nc m)).foldl
        (fun acc j =>
          if kAccuracy < |elem m 0 j| then
            acc + elem m 0 j * detAux fuel (GetSubmatrix m 0 j) *
              (if j % 2 = 0 then 1 else -1)
          else acc) 0

/-- Embedding of `Matrix::Determinant`: throw unless square, else the recursive
first-row cofactor expansion. -/
def Determinant (m : Matrix) : Except MatrixError ℚ :=
  if !(IsSquareMatrix m) then .error (.logicError "Matrix is not square")
  else .ok (detAux (nc m) m)

/-- The full first-row cofactor expansion with no tolerance skip
(base case: the single element).  Modelled from the words of the spec to compare
with `detAux`; same fuel discipline. -/
def detFull : Nat → Matrix → ℚ
  | 0, _ => 0
  | fuel + 1, m =>
    if IsMatrixNumber m then elem m 0 0
    else
      (List.range (nc m)).foldl
        (fun acc j =>
          acc + elem m 0 j * detFull fuel (GetSubmatrix m 0 j) *
            (if j % 2 = 0 then 1 else -1)) 0

/-- Embedding of `Matrix::CalcComplements`: throw unless square; a 1×1 matrix yields
`[[1.0]]` (the single cell of the zero-filled 1×1 result is set to `1.0`);
else every cell `(i, j)` is `GetSubmatrix(i, j).Determinant()` times the
checkerboard sign.  The submatrix of a square matrix is square, so its
`Determinant()` call returns `detAux` at fuel = its column count. -/
def CalcComplements (m : Matrix) : Except MatrixError Matrix :=
  if !(IsSquareMatrix m) then .error (.logicError "Matrix is not square")
  else if IsMatrixNumber m then
    .ok ⟨m.rows_, m.cols_, buildGrid (nr m) (nc m) (fun _ _ => 1)⟩
  else
    .ok ⟨m.rows_, m.cols_,
      buildGrid (nr m) (nc m)
        (fun i j =>
          detAux (nc (GetSubmatrix m i j)) (GetSubmatrix m i j) *
            (if (i + j) % 2 = 0 then 1 else -1))⟩

/-- Embedding of `Matrix::InverseMatrix`: compute the determinant (throwing if not
square), throw `LogicError("Matrix determinant is 0")` when
`|determinant| < kAccuracy`, else `CalcComplements().Transpose() * (1.0 / determinant)`. -/
def InverseMatrix (m : Matrix) : Except MatrixError Matrix :=
  (Determinant m).bind (fun determinant =>
    if |determinant| < kAccuracy then
      .error (.logicError "Matrix determinant is 0")
    else
      (CalcComplements m).bind (fun c =>
        .ok (MulNumberS (TransposeM c) (1 / determinant))))

/-- Embedding of `Matrix::SetDimension`: throw `InvalidArgument` unless both new
dimensions are positive (before any write); no-op when they equal the
current ones; else build a fresh zero grid of the new size, copy the
`min(rows_, new_rows) × min(cols_, new_cols)` overlap, and swap it in. -/
def SetDimensionS (m : Matrix) (new_rows new_cols : Int) : Matrix × Option MatrixError :=
  if !(IsNaturalNumbers new_rows new_cols) then (m, some .invalidArgument)
  else if new_rows == m.rows_ && new_cols == m.cols_ then (m, none)
  else
    (⟨new_rows, new_cols,
      buildGrid new_rows.toNat new_cols.toNat
        (fun i j =>
          if i < (min m.rows_ new_rows).toNat ∧ j < (min m.cols_ new_cols).toNat then
            elem m i j
          else 0)⟩, none)

/-- Embedding of `Matrix::SetRows`. -/
def SetRowsS (m : Matrix) (new_rows : Int) : Matrix × Option MatrixError :=
  SetDimensionS m new_rows m.cols_

/-- Embedding of `Matrix::SetCols`. -/
def SetColsS (m : Matrix) (new_cols : Int) : Matrix × Option MatrixError :=
  SetDimensionS m m.rows_ new_cols

/-- Embedding of `Matrix::operator()(int i, int j)`: bounds check, then the element; the
receiver is never written. -/
def atIdx (m : Matrix) (i j : Int) : Except MatrixError ℚ :=
  if m.rows_ ≤ i ∨ m.cols_ ≤ j ∨ i < 0 ∨ j < 0 then .error .outOfRange
  else .ok (elem m i.toNat j.toNat)

/-- Embedding of `Matrix::CopyFrom` (receiver distinct from `other`): when dimensions
differ, free and reallocate at the dimensions of `other`; then copy every
element.  Value of the receiver afterwards: the dimensions of `other` and a
grid holding the elements of `other`. -/
def CopyFromS (other : Matrix) : Matrix :=
  ⟨other.rows_, other.cols_, buildGrid (nr other) (nc other) (fun i j => elem other i j)⟩

/-- Embedding of `Matrix::Matrix(Matrix&& other)`: the new object starts as
`{rows_ = 0, cols_ = 0, matrix_ = nullptr}` and swaps with `other`;
returns (new object, state of `other` afterwards). -/
def moveCtorS (other : Matrix) : Matrix × Matrix :=
  (⟨other.rows_, other.cols_, other.matrix_⟩, ⟨0, 0, []⟩)

/-- Embedding of `Matrix::operator=(Matrix&& other)` for distinct objects: the body
calls `CopyFrom(other)` — a deep copy through a `const` reference; `other`
is not written.  Returns the pair (state of receiver, state of `other`) afterwards.
(Self-move hits the `this != &other` guard and changes nothing.) -/
def moveAssignS (_self other : Matrix) : Matrix × Matrix :=
  (CopyFromS other, other)

/-! ### Basic lemmas about the embedding -/

theorem elem_mk (r c : Int) (g : List (List ℚ)) (i j : Nat) :
    elem ⟨r, c, g⟩ i j = (g.getD i []).getD j 0 := rfl

theorem buildGrid_getD {rows cols : Nat} (f : Nat → Nat → ℚ) {i j : Nat}
    (hi : i < rows) (hj : j < cols) :
    (((buildGrid rows cols f).getD i []).getD j 0) = f i j := by
  simp [buildGrid, List.getD_eq_getElem?_getD, List.getElem?_map, List.getElem?_range, hi, hj]

theorem elem_buildGrid {r c : Int} {rows cols : Nat} (f : Nat → Nat → ℚ) {i j : Nat}
    (hi : i < rows) (hj : j < cols) :
    elem ⟨r, c, buildGrid rows cols f⟩ i j = f i j :=
  buildGrid_getD f hi hj

theorem buildGrid_congr {rows cols : Nat} {f g : Nat → Nat → ℚ}
    (h : ∀ i, i < rows → ∀ j, j < cols → f i j = g i j) :
    buildGrid rows cols f = buildGrid rows cols g := by
  unfold buildGrid
  apply List.map_congr_left
  intro i hi
  apply List.map_congr_left
  intro j hj
  exact h i (List.mem_range.mp hi) j (List.mem_range.mp hj)

theorem foldl_add_eq_sum (l : List ℕ) (g : ℕ → ℚ) (init : ℚ) :
    l.foldl (fun acc x => acc + g x) init = init + (l.map g).sum := by
  induction l generalizing init with
  | nil => simp
  | cons x xs ih => simp [List.foldl_cons, ih, add_assoc]

/-- Characterization of `EqMatrix` as a proposition. -/
theorem eqMatrix_iff (a b : Matrix) :
    EqMatrix a b = true ↔
      a.rows_ = b.rows_ ∧ a.cols_ = b.cols_ ∧
        ∀ i, i < nr a → ∀ j, j < nc a → |elem a i j - elem b i j| ≤ kAccuracy := by
  unfold EqMatrix IsSameDimensionMatrix
  by_cases h1 : a.cols_ = b.cols_ <;> by_cases h2 : a.rows_ = b.rows_ <;>
    simp [h1, h2, List.all_eq_true, List.mem_range, not_lt]

/-! ### Concrete matrices used as test inputs -/

def mA : Matrix := ⟨2, 2, [[1, 2], [3, 4]]⟩

def mB : Matrix := ⟨1, 1, [[5]]⟩

def mI3 : Matrix := ⟨3, 3, [[2, 0, 0], [0, 2, 0], [0, 0, 2]]⟩

/-- 1×1 matrix whose single element sits exactly at the tolerance. -/
def mEpsOne : Matrix := ⟨1, 1, [[kAccuracy]]⟩

/-- 2×2 matrix whose leading element is nonzero but within the tolerance. -/
def mSkip : Matrix := ⟨2, 2, [[kAccuracy, 1], [1, 1]]⟩

/-! ### Claims -/

/-- C7: `Transpose` returns a new matrix with dimensions swapped and
`result[j][i] = A[i][j]` for all valid `i, j`, never fails, does not mutate
`A` (it is a pure function of the receiver), and transposing twice gives
back a matrix equal to `A`. -/
theorem claim_C7_transpose (m : Matrix) :
    (TransposeM m).rows_ = m.cols_ ∧ (TransposeM m).cols_ = m.rows_ ∧
    (∀ i, i < nr m → ∀ j, j < nc m → elem (TransposeM m) j i = elem m i j) ∧
    EqMatrix (TransposeM (TransposeM m)) m = true := by
  refine ⟨rfl, rfl, ?_, ?_⟩
  · intro i hi j hj
    exact elem_buildGrid _ hj hi
  · rw [eqMatrix_iff]
    refine ⟨rfl, rfl, ?_⟩
    intro i hi j hj
    have h1 : elem (TransposeM (TransposeM m)) i j = elem (TransposeM m) j i :=
      elem_buildGrid _ hi hj
    have h2 : elem (TransposeM m) j i = elem m i j := elem_buildGrid _ hj hi
    rw [h1, h2, sub_self, abs_zero]
    decide

/-- Witness for C7 at a concrete input. -/
theorem claim_C7_witness : elem (TransposeM mA) 1 0 = elem mA 0 1 :=
  (claim_C7_transpose mA).2.2.1 0 (by decide) 1 (by decide)

/-- C8: equality returns true iff the two matrices have identical dimensions
and every corresponding element pair differs in absolute value by at most
`kAccuracy`; comparing an instance with itself gives true; dimension
mismatch gives false; the predicate is reflexive and symmetric (and, being
a total `Bool`-valued function, throws nothing). -/
theorem claim_C8_equality (a b : Matrix) :
    (EqMatrix a b = true ↔
      a.rows_ = b.rows_ ∧ a.cols_ = b.cols_ ∧
        ∀ i, i < nr a → ∀ j, j < nc a → |elem a i j - elem b i j| ≤ kAccuracy) ∧
    EqMatrix a a = true ∧
    EqMatrix a b = EqMatrix b a ∧
    ((¬ a.rows_ = b.rows_ ∨ ¬ a.cols_ = b.cols_) → EqMatrix a b = false) := by
  refine ⟨eqMatrix_iff a b, ?_, ?_, ?_⟩
  · rw [eqMatrix_iff]
    refine ⟨rfl, rfl, ?_⟩
    intro i _ j _
    rw [sub_self, abs_zero]
    decide
  · rw [Bool.eq_iff_iff, eqMatrix_iff, eqMatrix_iff]
    constructor
    · rintro ⟨h1, h2, h3⟩
      refine ⟨h1.symm, h2.symm, ?_⟩
      intro i hi j hj
      rw [abs_sub_comm]
      exact h3 i (by simpa [nr, h1] using hi) j (by simpa [nc, h2] using hj)
    · rintro ⟨h1, h2, h3⟩
      refine ⟨h1.symm, h2.symm, ?_⟩
      intro i hi j hj
      rw [abs_sub_comm]
      exact h3 i (by simpa [nr, h1] using hi) j (by simpa [nc, h2] using hj)
  · intro h
    cases hb : EqMatrix a b with
    | false => rfl
    | true =>
      exfalso
      rcases (eqMatrix_iff a b).mp hb with ⟨h1, h2, _⟩
      rcases h with h | h
      · exact h h1
      · exact h h2

/-- Witness for C8 at a concrete input. -/
theorem claim_C8_witness : EqMatrix mA mB = false :=
  (claim_C8_equality mA mB).2.2.2 (Or.inl (by decide))

/-- Lemma: `SetDimension` leaves the receiver untouched when it throws. -/
theorem setDimensionS_error (m : Matrix) (r c : Int) :
    ((SetDimensionS m r c).2).isSome → (SetDimensionS m r c).1 = m := by
  unfold SetDimensionS
  split
  · intro _; rfl
  · split
    · intro _; rfl
    · intro h; simp at h

/-- C9: every fallible mutating operation (`SumMatrix`, `SubMatrix`,
`MulMatrix`, `SetRows`/`SetCols`/`SetDimension`) leaves the dimensions
of the receiver and elements exactly as they were whenever it throws.  The
remaining fallible operations (`operator()`, `Determinant`,
`CalcComplements`, `InverseMatrix`) are `const` in the source and are
embedded as pure functions of the receiver, so they mutate nothing on any
path. -/
theorem claim_C9_no_partial_mutation (a b : Matrix) (r c : Int) :
    ((SumMatrixS a b).2.isSome → (SumMatrixS a b).1 = a) ∧
    ((SubMatrixS a b).2.isSome → (SubMatrixS a b).1 = a) ∧
    ((MulMatrixS a b).2.isSome → (MulMatrixS a b).1 = a) ∧
    ((SetDimensionS a r c).2.isSome → (SetDimensionS a r c).1 = a) ∧
    ((SetRowsS a r).2.isSome → (SetRowsS a r).1 = a) ∧
    ((SetColsS a c).2.isSome → (SetColsS a c).1 = a) := by
  refine ⟨?_, ?_, ?_, setDimensionS_error a r c,
    setDimensionS_error a r a.cols_, setDimensionS_error a a.rows_ c⟩
  · unfold SumMatrixS
    split
    · intro _; rfl
    · intro h; simp at h
  · unfold SubMatrixS
    split
    · intro _; rfl
    · intro h; simp at h
  · unfold MulMatrixS
    split
    · intro _; rfl
    · intro h; simp at h

/-- Witness for C9 at a concrete input: adding a 2×2 to a 1×1 throws and
leaves the receiver unchanged. -/
theorem claim_C9_witness : (SumMatrixS mB mA).1 = mB :=
  (claim_C9_no_partial_mutation mB mA 0 0).1 (by decide)

/-- C5: `SetRows(n)` / `SetCols(n)` (via `SetDimension`) throw
`InvalidArgument` when the resulting dimension pair contains a non-positive
value; equal dimensions are a no-op; otherwise the result has the new
dimensions, the overlap `min(old,new) rows × min(old,new) cols` keeps its
values and positions, everything else is zero, and a failing call leaves
the matrix unchanged. -/
theorem claim_C5_setDimension (m : Matrix) (r c : Int) :
    (¬ (0 < r ∧ 0 < c) → SetDimensionS m r c = (m, some .invalidArgument)) ∧
    (0 < r → 0 < c → r = m.rows_ → c = m.cols_ → SetDimensionS m r c = (m, none)) ∧
    (0 < r → 0 < c → ¬ (r = m.rows_ ∧ c = m.cols_) →
      (SetDimensionS m r c).2 = none ∧
      (SetDimensionS m r c).1.rows_ = r ∧ (SetDimensionS m r c).1.cols_ = c ∧
      (∀ i, i < r.toNat → ∀ j, j < c.toNat →
        elem (SetDimensionS m r c).1 i j =
          if i < (min m.rows_ r).toNat ∧ j < (min m.cols_ c).toNat then elem m i j
          else 0)) ∧
    SetRowsS m r = SetDimensionS m r m.cols_ ∧
    SetColsS m c = SetDimensionS m m.rows_ c ∧
    (∀ e, (SetDimensionS m r c).2 = some e → (SetDimensionS m r c).1 = m) := by
  refine ⟨?_, ?_, ?_, rfl, rfl, ?_⟩
  · intro h
    have hb : IsNaturalNumbers r c = false := by
      rcases not_and_or.mp h with h' | h' <;> simp [IsNaturalNumbers, h']
    simp [SetDimensionS, hb]
  · intro hr hc h1 h2
    subst h1
    subst h2
    have hb : IsNaturalNumbers m.rows_ m.cols_ = true := by
      simp [IsNaturalNumbers, hr, hc]
    simp [SetDimensionS, hb]
  · intro hr hc hne
    have hb : IsNaturalNumbers r c = true := by simp [IsNaturalNumbers, hr, hc]
    have hb2 : (r == m.rows_ && c == m.cols_) = false := by
      rcases not_and_or.mp hne with h' | h' <;> simp [h']
    refine ⟨by simp [SetDimensionS, hb, hb2], by simp [SetDimensionS, hb, hb2],
      by simp [SetDimensionS, hb, hb2], ?_⟩
    intro i hi j hj
    simp only [SetDimensionS, hb, hb2, Bool.not_true, Bool.false_eq_true, if_false,
      Bool.and_self, if_true]
    exact elem_buildGrid _ hi hj
  · intro e he
    exact setDimensionS_error m r c (by rw [he]; rfl)

/-- Witness for C5 at a concrete input: growing the 1×1 `[[5]]` to 2×2. -/
theorem claim_C5_witness :
    (SetDimensionS mB 2 2).2 = none ∧ (SetDimensionS mB 2 2).1.rows_ = 2 :=
  ⟨((claim_C5_setDimension mB 2 2).2.2.1 (by decide) (by decide) (by decide)).1,
   ((claim_C5_setDimension mB 2 2).2.2.1 (by decide) (by decide) (by decide)).2.1⟩

/-- C6: matrix multiplication throws `LogicError` exactly when
`this.cols ≠ other.rows`; otherwise it produces a `rows(this) × cols(other)`
result with `result[i][j] = Σ_k this[i][k] · other[k][j]`, the in-place form
adopts that result as its new state (dimensions may change), and the
non-mutating `*` returns the same product. -/
theorem claim_C6_mulMatrix (a b : Matrix) :
    ((MulMatrixS a b).2.isSome ↔ ¬ a.cols_ = b.rows_) ∧
    (¬ a.cols_ = b.rows_ → MulMatrixS a b = (a, some (.logicError
      "The number of columns of the first matrix is not equal to the number of rows of the second matrix"))) ∧
    (a.cols_ = b.rows_ →
      (MulMatrixS a b).2 = none ∧
      (MulMatrixS a b).1.rows_ = a.rows_ ∧ (MulMatrixS a b).1.cols_ = b.cols_ ∧
      (∀ i, i < nr a → ∀ j, j < nc b →
        elem (MulMatrixS a b).1 i j =
          ((List.range (nc a)).map (fun k => elem a i k * elem b k j)).sum)) ∧
    (a.cols_ = b.rows_ → opStarMatrix a b = .ok (MulMatrixS a b).1) ∧
    (¬ a.cols_ = b.rows_ → opStarMatrix a b = .error (.logicError
      "The number of columns of the first matrix is not equal to the number of rows of the second matrix")) := by
  by_cases hc : a.cols_ = b.rows_
  · refine ⟨by simp [MulMatrixS, hc], fun h => absurd hc h, ?_, ?_, fun h => absurd hc h⟩
    · intro _
      refine ⟨by simp [MulMatrixS, hc], by simp [MulMatrixS, hc], by simp [MulMatrixS, hc], ?_⟩
      intro i hi j hj
      have h1 : elem (MulMatrixS a b).1 i j = mulCell a b i j := by
        simp only [MulMatrixS, hc, ne_eq, not_true_eq_false, if_false]
        exact elem_buildGrid _ hi hj
      rw [h1]
      unfold mulCell
      rw [foldl_add_eq_sum, zero_add]
    · intro _
      simp [opStarMatrix, MulMatrixS, hc]
  · refine ⟨by simp [MulMatrixS, hc], fun _ => by simp [MulMatrixS, hc], fun h => absurd h hc,
      fun h => absurd h hc, fun _ => by simp [opStarMatrix, MulMatrixS, hc]⟩

/-- Witness for C6 at a concrete input: `[[1,2],[3,4]]` squared. -/
theorem claim_C6_witness :
    elem (MulMatrixS mA mA).1 0 0 =
      ((List.range (nc mA)).map (fun k => elem mA 0 k * elem mA k 0)).sum :=
  ((claim_C6_mulMatrix mA mA).2.2.1 (by decide)).2.2.2 0 (by decide) 0 (by decide)

/-- C4: `CalcComplements` throws `LogicError` when not square; a 1×1 matrix
yields `[[1.0]]` regardless of its element; for square matrices of size ≥ 2
cell `(i, j)` is the determinant of the submatrix with row `i` and column
`j` deleted, times `+1` when `i + j` is even and `−1` otherwise. -/
theorem claim_C4_calcComplements (m : Matrix) :
    (¬ m.rows_ = m.cols_ → CalcComplements m = .error (.logicError "Matrix is not square")) ∧
    (m.rows_ = 1 → m.cols_ = 1 → CalcComplements m = .ok ⟨1, 1, [[1]]⟩) ∧
    (m.rows_ = m.cols_ → ¬ (m.rows_ = 1 ∧ m.cols_ = 1) →
      ∀ M, CalcComplements m = .ok M →
        M.rows_ = m.rows_ ∧ M.cols_ = m.cols_ ∧
        ∀ i, i < nr m → ∀ j, j < nc m →
          Determinant (GetSubmatrix m i j) =
            .ok (detAux (nc (GetSubmatrix m i j)) (GetSubmatrix m i j)) ∧
          elem M i j = detAux (nc (GetSubmatrix m i j)) (GetSubmatrix m i j) *
            (if (i + j) % 2 = 0 then 1 else -1)) := by
  refine ⟨?_, ?_, ?_⟩
  · intro h
    simp [CalcComplements, IsSquareMatrix, h]
  · intro hr hc
    have h1 : IsSquareMatrix m = true := by simp [IsSquareMatrix, hr, hc]
    have h2 : IsMatrixNumber m = true := by simp [IsMatrixNumber, hr, hc]
    simp only [CalcComplements, h1, h2, Bool.not_true, Bool.false_eq_true, if_false, if_true]
    rw [Except.ok.injEq, Matrix.mk.injEq]
    refine ⟨hr, hc, ?_⟩
    have hnr : nr m = 1 := by simp [nr, hr]
    have hnc : nc m = 1 := by simp [nc, hc]
    rw [hnr, hnc]
    decide
  · intro hsq hn M hM
    have h1 : IsSquareMatrix m = true := by simp [IsSquareMatrix, hsq]
    have h2 : IsMatrixNumber m = false := by
      rcases not_and_or.mp hn with h' | h' <;> simp [IsMatrixNumber, h']
    simp only [CalcComplements, h1, h2, Bool.not_true, Bool.false_eq_true, if_false,
      Except.ok.injEq] at hM
    subst hM
    refine ⟨rfl, rfl, ?_⟩
    intro i hi j hj
    constructor
    · have hssq : IsSquareMatrix (GetSubmatrix m i j) = true := by
        simp [IsSquareMatrix, GetSubmatrix, hsq]
      simp [Determinant, hssq]
    · exact elem_buildGrid _ hi hj

/-- Witness for C4 at a concrete input: the 3×3 diagonal matrix. -/
theorem claim_C4_witness :
    elem ⟨3, 3, [[4, 0, 0], [0, 4, 0], [0, 0, 4]]⟩ 0 0 =
      detAux (nc (GetSubmatrix mI3 0 0)) (GetSubmatrix mI3 0 0) *
        (if (0 + 0) % 2 = 0 then 1 else -1) :=
  (((claim_C4_calcComplements mI3).2.2 (by decide) (by decide) ⟨3, 3, [[4, 0, 0], [0, 4, 0], [0, 0, 4]]⟩ (by decide)).2.2 0 (by decide) 0 (by decide)).2

/-- C10: in-place multiplication is aliasing-safe for `A *= A` on a square
matrix: the product is accumulated into a separate temporary and then
adopted, so the state afterwards equals first computing `B = A * A` into a
fresh matrix and then copy-assigning `B` to `A`, with the mathematically
correct inner products. -/
theorem claim_C10_aliasing (a : Matrix) (hsq : a.rows_ = a.cols_) :
    (MulMatrixS a a).2 = none ∧
    (∀ B, opStarMatrix a a = .ok B → (MulMatrixS a a).1 = CopyFromS B) ∧
    (∀ i, i < nr a → ∀ j, j < nc a →
      elem (MulMatrixS a a).1 i j =
        ((List.range (nc a)).map (fun k => elem a i k * elem a k j)).sum) := by
  have hne : ¬ (a.cols_ ≠ a.rows_) := by simp [hsq.symm]
  have hmm : MulMatrixS a a =
      (⟨a.rows_, a.cols_, buildGrid (nr a) (nc a) (mulCell a a)⟩, none) := by
    unfold MulMatrixS
    rw [if_neg hne]
  refine ⟨by rw [hmm], ?_, ?_⟩
  · intro B hB
    unfold opStarMatrix at hB
    rw [hmm] at hB
    simp only [Except.ok.injEq] at hB
    rw [hmm, ← hB]
    unfold CopyFromS
    rw [Matrix.mk.injEq]
    refine ⟨rfl, rfl, ?_⟩
    simp only [nr, nc]
    exact buildGrid_congr fun i hi j hj => (elem_buildGrid _ hi hj).symm
  · intro i hi j hj
    rw [hmm]
    show elem (⟨a.rows_, a.cols_, buildGrid (nr a) (nc a) (mulCell a a)⟩ : Matrix) i j = _
    rw [elem_buildGrid _ hi hj]
    unfold mulCell
    rw [foldl_add_eq_sum, zero_add]

/-- Witness for C10 at a concrete input: `[[1,2],[3,4]] *= itself`. -/
theorem claim_C10_witness : (MulMatrixS mA mA).1 = CopyFromS ⟨2, 2, [[7, 10], [15, 22]]⟩ :=
  (claim_C10_aliasing mA (by decide)).2.1 ⟨2, 2, [[7, 10], [15, 22]]⟩ (by decide)

/-- C1 fails on the code: move **assignment** does not empty the source.
With source `mA` (a 2×2), after `dest = std::move(src)` the source still
has its dimensions and storage, not the moved-from `0×0`/null state the
claim requires. -/
theorem claim_C1_counterexample :
    ¬ ((moveAssignS mB mA).2.rows_ = 0 ∧ (moveAssignS mB mA).2.cols_ = 0 ∧
       (moveAssignS mB mA).2.matrix_ = []) := by decide

/-- C1 (amended): move construction transfers storage and dimensions to
the destination and leaves the source in the empty moved-from state
(`rows = 0`, `cols = 0`, no storage); move assignment, however, deep-copies
the dimensions and elements of the source into the destination (via `CopyFrom`)
and leaves the source unchanged. -/
theorem claim_C1_move_semantics (d s : Matrix) :
    moveCtorS s = (⟨s.rows_, s.cols_, s.matrix_⟩, ⟨0, 0, []⟩) ∧
    (moveAssignS d s).2 = s ∧
    (moveAssignS d s).1.rows_ = s.rows_ ∧
    (moveAssignS d s).1.cols_ = s.cols_ ∧
    (∀ i, i < nr s → ∀ j, j < nc s → elem (moveAssignS d s).1 i j = elem s i j) := by
  refine ⟨rfl, rfl, rfl, rfl, ?_⟩
  intro i hi j hj
  exact elem_buildGrid _ hi hj

/-- Witness for (amended) C1 at a concrete input. -/
theorem claim_C1_witness : elem (moveAssignS mB mA).1 0 1 = elem mA 0 1 :=
  (claim_C1_move_semantics mB mA).2.2.2.2 0 (by decide) 1 (by decide)

/-- Reduction of `Except.bind` on a success value. -/
theorem except_bind_ok {ε α β : Type} (a : α) (f : α → Except ε β) :
    Except.bind (Except.ok a) f = f a := rfl

/-- A square matrix always has a cofactor matrix. -/
theorem calcComplements_ok (m : Matrix) (h1 : IsSquareMatrix m = true) :
    ∃ C, CalcComplements m = .ok C := by
  unfold CalcComplements
  rw [h1]
  simp only [Bool.not_true, Bool.false_eq_true, if_false]
  split
  · exact ⟨_, rfl⟩
  · exact ⟨_, rfl⟩

/-- C2 fails on the code: the zero-determinant check is strict
(`|determinant| < kAccuracy`), so at `|determinant| = kAccuracy` — the 1×1
matrix `[[kAccuracy]]` — the claim requires failure but `InverseMatrix`
succeeds and returns `[[1e7]]`. -/
theorem claim_C2_counterexample :
    |detAux (nc mEpsOne) mEpsOne| ≤ kAccuracy ∧
    InverseMatrix mEpsOne = .ok ⟨1, 1, [[10000000]]⟩ := by decide

/-- C2 (amended): for every square matrix, `InverseMatrix` fails with
`LogicError` ("determinant is 0") iff the absolute value of the determinant
is **strictly less than** `kAccuracy`; otherwise it returns
`Transpose(CofactorMatrix)` scaled by `1/determinant`. -/
theorem claim_C2_inverse (m : Matrix) (hsq : m.rows_ = m.cols_) :
    (InverseMatrix m = .error (.logicError "Matrix determinant is 0") ↔
      |detAux (nc m) m| < kAccuracy) ∧
    (kAccuracy ≤ |detAux (nc m) m| →
      ∀ C, CalcComplements m = .ok C →
        InverseMatrix m = .ok (MulNumberS (TransposeM C) (1 / detAux (nc m) m))) := by
  have h1 : IsSquareMatrix m = true := by simp [IsSquareMatrix, hsq]
  have hdet : Determinant m = .ok (detAux (nc m) m) := by simp [Determinant, h1]
  constructor
  · constructor
    · intro h
      by_contra hlt
      unfold InverseMatrix at h
      rw [hdet, except_bind_ok, if_neg hlt] at h
      obtain ⟨C, hC⟩ := calcComplements_ok m h1
      rw [hC, except_bind_ok] at h
      exact Except.noConfusion h
    · intro h
      unfold InverseMatrix
      rw [hdet, except_bind_ok, if_pos h]
  · intro h C hC
    unfold InverseMatrix
    rw [hdet, except_bind_ok, if_neg (not_lt.mpr h), hC, except_bind_ok]

/-- Witness for (amended) C2 at a concrete input: inverting `[[1,2],[3,4]]`. -/
theorem claim_C2_witness :
    InverseMatrix mA =
      .ok (MulNumberS (TransposeM ⟨2, 2, [[4, -3], [-2, 1]]⟩) (1 / detAux (nc mA) mA)) :=
  (claim_C2_inverse mA rfl).2 (by decide) ⟨2, 2, [[4, -3], [-2, 1]]⟩ (by decide)

/-- Elements of `GetSubmatrix` come from the source matrix at the
index-shifted positions. -/
theorem elem_getSubmatrix (m : Matrix) (dr dc i j : Nat)
    (hi : i < (m.rows_ - 1).toNat) (hj : j < (m.cols_ - 1).toNat) :
    elem (GetSubmatrix m dr dc) i j =
      elem m (if i < dr then i else i + 1) (if j < dc then j else j + 1) :=
  elem_buildGrid _ hi hj

/-- The zero-or-above-tolerance entry property is inherited by submatrices. -/
theorem getSubmatrix_entries (m : Matrix) (dr dc : Nat)
    (h : ∀ i, i < nr m → ∀ j, j < nc m → elem m i j = 0 ∨ kAccuracy < |elem m i j|) :
    ∀ i, i < nr (GetSubmatrix m dr dc) → ∀ j, j < nc (GetSubmatrix m dr dc) →
      elem (GetSubmatrix m dr dc) i j = 0 ∨
        kAccuracy < |elem (GetSubmatrix m dr dc) i j| := by
  intro i hi j hj
  have hi' : i < (m.rows_ - 1).toNat := hi
  have hj' : j < (m.cols_ - 1).toNat := hj
  rw [elem_getSubmatrix m dr dc i j hi' hj']
  apply h
  · unfold nr at *
    split <;> omega
  · unfold nc at *
    split <;> omega

/-- A fold congruence: two folds over the same list agree when their step
functions agree on the members of the list. -/
theorem foldl_congr_fun {α β : Type} (l : List α) (f g : β → α → β) (init : β)
    (h : ∀ acc : β, ∀ x ∈ l, f acc x = g acc x) : l.foldl f init = l.foldl g init := by
  induction l generalizing init with
  | nil => rfl
  | cons x xs ihl =>
    simp only [List.foldl_cons]
    rw [h init x (List.mem_cons_self x xs)]
    exact ihl _ (fun acc y hy => h acc y (List.mem_cons_of_mem x hy))

/-- On square matrices whose entries are each exactly zero or above the
tolerance in absolute value, the tolerance-skipping expansion agrees with
the full cofactor expansion. -/
theorem detAux_eq_detFull (fuel : Nat) :
    ∀ m : Matrix, m.rows_ = m.cols_ →
      (∀ i, i < nr m → ∀ j, j < nc m → elem m i j = 0 ∨ kAccuracy < |elem m i j|) →
      detAux fuel m = detFull fuel m := by
  induction fuel with
  | zero => intro m _ _; rfl
  | succ fuel ih =>
    intro m hsq hP
    unfold detAux detFull
    split
    · rfl
    · apply foldl_congr_fun
      intro acc j hj
      have hj' : j < nc m := List.mem_range.mp hj
      have hnrnc : nr m = nc m := by unfold nr nc; rw [hsq]
      by_cases hq : kAccuracy < |elem m 0 j|
      · rw [if_pos hq]
        have hsub : (GetSubmatrix m 0 j).rows_ = (GetSubmatrix m 0 j).cols_ := by
          simp [GetSubmatrix, hsq]
        rw [ih (GetSubmatrix m 0 j) hsub (getSubmatrix_entries m 0 j hP)]
      · rw [if_neg hq]
        have h0 : elem m 0 j = 0 :=
          (hP 0 (by omega) j hj').resolve_right hq
        rw [h0]
        ring

/-- C3 fails on the code: `Determinant` is not the full first-row cofactor
expansion.  On `[[kAccuracy, 1], [1, 1]]` the leading element is nonzero
but within tolerance, so the code skips its term and returns `-1`, while
the full expansion gives `kAccuracy - 1`. -/
theorem claim_C3_counterexample :
    Determinant mSkip = .ok (-1) ∧
    detFull (nc mSkip) mSkip = kAccuracy - 1 ∧
    (-1 : ℚ) ≠ kAccuracy - 1 := by decide

/-- C3 (amended): `Determinant` is the first-row cofactor expansion that
skips columns whose leading element is within `kAccuracy` of zero; skipping
changes nothing relative to the full expansion whenever every entry is
either exactly zero or above the tolerance in absolute value (skipping a
true zero contributes 0); the concrete values `[[5]] ↦ 5`,
`[[1,2],[3,4]] ↦ −2` and `[[2,0,0],[0,2,0],[0,0,2]] ↦ 8` all hold. -/
theorem claim_C3_determinant (m : Matrix) (hsq : m.rows_ = m.cols_)
    (hP : ∀ i, i < nr m → ∀ j, j < nc m → elem m i j = 0 ∨ kAccuracy < |elem m i j|) :
    Determinant m = .ok (detFull (nc m) m) ∧
    Determinant mB = .ok 5 ∧
    Determinant mA = .ok (-2) ∧
    Determinant mI3 = .ok 8 := by
  refine ⟨?_, by decide, by decide, by decide⟩
  have h1 : IsSquareMatrix m = true := by simp [IsSquareMatrix, hsq]
  simp [Determinant, h1, detAux_eq_detFull (nc m) m hsq hP]

/-- Witness for (amended) C3 at a concrete input: the 3×3 diagonal matrix,
whose entries are all zero or above tolerance. -/
theorem claim_C3_witness : Determinant mI3 = .ok (detFull (nc mI3) mI3) :=
  (claim_C3_determinant mI3 rfl (by decide)).1

end MatrixCpp
